import Mathlib

/-!
Verification of the YouTube download bot (`src/main.py`) against its
specification.  The Python source is shallowly embedded: text is modelled
as `List Char` (so that every definition evaluates inside the kernel),
stateful handlers become functions over explicit state values, raised
exceptions become `Except` / explicit error fields, and the cooperative
concurrency of the playlist batch orchestrator becomes a small-step
transition relation.
-/

/-- Python `str`, modelled as a list of characters. -/
abbrev Str := List Char

/-- `MAX_FILE_SIZE = 2000 * 1024 * 1024` [main.py:40]. -/
def MAX_FILE_SIZE : Nat := 2000 * 1024 * 1024

/-- `DOWNLOAD_BATCH_SIZE = 5` [main.py:41]. -/
def DOWNLOAD_BATCH_SIZE : Nat := 5

/-- Python's substring test `pat in s`. -/
def hasSub (pat : Str) : Str → Bool
  | [] => pat.isEmpty
  | c :: rest => pat.isPrefixOf (c :: rest) || hasSub pat rest

/-- Python's `s.replace(pat, rep)`: replace every non-overlapping occurrence,
scanning left to right.  (All call sites in `main.py` use a non-empty `pat`;
for an empty `pat` this is the identity, unlike Python.) -/
def replaceAll (pat rep : Str) : Str → Str
  | [] => []
  | c :: rest =>
    if pat.isPrefixOf (c :: rest) ∧ pat ≠ [] then
      rep ++ replaceAll pat rep (rest.drop (pat.length - 1))
    else
      c :: replaceAll pat rep rest
termination_by s => s.length
decreasing_by
  · simp only [List.length_drop, List.length_cons]
    omega
  · simp only [List.length_cons]
    omega

/-- Decimal digits of a natural number, exactly as Python renders it. -/
def natChars (n : Nat) : Str := Nat.toDigits 10 n

/-- `bytes / (1024*1024)` scaled by ten and rounded to the nearest integer:
the integer that carries the one-decimal megabyte figure that Python's
`f"...:.1f"` formatting of `size / (1024 * 1024)` displays (rounding of the
exact half differs, which no property here depends on). -/
def sizeMBtimes10 (bytes : Nat) : Nat := (bytes * 10 + 524288) / 1048576

/-- Render `x10 / 10` with one decimal place. -/
def oneDecimal (x10 : Nat) : Str := natChars (x10 / 10) ++ ['.'] ++ natChars (x10 % 10)

/-- The `f"...size / (1024 * 1024):.1f"` megabyte figure used in messages. -/
def mbLabel (bytes : Nat) : Str := oneDecimal (sizeMBtimes10 bytes)

/-! ## Scratch directory and `cleanup_temp_files` [main.py:781-794] -/

/-- One entry of a scratch directory.  `isFile` is `os.path.isfile`;
`deletable` says whether `os.unlink` succeeds on it. -/
structure FileEntry where
  name : Str
  size : Nat
  isFile : Bool
  deletable : Bool
deriving DecidableEq

/-- The state of one temporary directory: whether it exists and its entries. -/
structure DirState where
  present : Bool
  entries : List FileEntry

/-- Internal operating-system errors raised inside `cleanup_temp_files`. -/
inductive OsErr
  | rmdirNonEmpty

/-- Entries still present after the per-file deletion loop
[main.py:785-791]: a file survives when it is not a regular file (the
`os.path.isfile` guard skips it) or when `os.unlink` fails (the inner
`except` catches and logs). -/
def cleanupSurvivors (entries : List FileEntry) : List FileEntry :=
  entries.filter (fun f => !(f.isFile && f.deletable))

/-- `cleanup_temp_files` with the exception plumbing made explicit: the
second component is the error that `os.rmdir` raised and the outer
`except` handler caught (logged, never re-raised) [main.py:783-794]. -/
def cleanupWithExceptions (d : DirState) : DirState × Option OsErr :=
  if d.present then
    let survivors := cleanupSurvivors d.entries
    if survivors.isEmpty then (⟨false, []⟩, none)
    else (⟨true, survivors⟩, some OsErr.rmdirNonEmpty)
  else (d, none)

/-- `cleanup_temp_files(directory)` [main.py:781-794]: the state of the
directory after the call returns (it always returns normally). -/
def cleanup_temp_files (d : DirState) : DirState := (cleanupWithExceptions d).1

/-! ## `download_and_send_video` [main.py:571-697] -/

/-- The requested quality: `"audio"` or a numeric height string. -/
inductive Quality
  | audio
  | res (h : Nat)

/-- Outcomes of the two external collaborators of one download job:
what the `YoutubeDL` fetch does (error and the files it leaves in the
scratch directory) and what the transport send does. -/
structure JobEnv where
  fetchErr : Option Str
  fetchFiles : List FileEntry
  fetchTitle : Str
  sendErr : Option Str

/-- Observable events of one download job, in program order. -/
inductive JobEv
  | fetched
  | sizeChecked (size : Nat)
  | sentAudio (path : Str)
  | sentVideo (path : Str)
  | cleanedUp

/-- Result of one `download_and_send_video` call. -/
structure JobOut where
  events : List JobEv
  ok : Bool
  dir : DirState
  msg : Option Str
  caught : Option Str

/-- `f"\nDownloading {progress_label}..."` [main.py:616-617]. -/
def downloadingTail (label : Str) : Str :=
  ("\nDownloading ".toList) ++ label ++ ("...".toList)

/-- The shared-message update before the fetch [main.py:614-617]. -/
def updateDownloading (text label : Str) : Str :=
  if (downloadingTail label).isSuffixOf text then text
  else text ++ downloadingTail label

/-- `f"\nUploading {progress_label} ({file_size / (1024 * 1024):.1f}MB)..."`
[main.py:641-642]. -/
def uploadingLine (label : Str) (bytes : Nat) : Str :=
  ("\nUploading ".toList) ++ label ++ (" (".toList) ++ mbLabel bytes ++ ("MB)...".toList)

/-- The shared-message update before the send [main.py:638-642]: append an
uploading line only when the substring `"Uploading"` is absent. -/
def updateUploading (text label : Str) (bytes : Nat) : Str :=
  if hasSub ("Uploading".toList) text then text
  else text ++ uploadingLine label bytes

/-- The success rewrite [main.py:669-675]. -/
def completedUpdate (text label : Str) : Str :=
  replaceAll (("Uploading ".toList) ++ label) (("✅ Completed ".toList) ++ label) text

/-- `f"❌ Failed {progress_label}: {str(e)[:50]}"` [main.py:687, 690]. -/
def failText (label e : Str) : Str :=
  ("❌ Failed ".toList) ++ label ++ (": ".toList) ++ e.take 50

/-- The failure rewrite of the shared message [main.py:683-692]. -/
def failureUpdate (text label e : Str) : Str :=
  replaceAll (("Uploading ".toList) ++ label) (failText label e)
    (replaceAll (("Downloading ".toList) ++ label ++ ("...".toList)) (failText label e) text)

/-- `f"File size ({file_size / (1024 * 1024):.1f}MB) exceeds the 2GB limit."`
[main.py:635]. -/
def sizeLimitMsg (bytes : Nat) : Str :=
  ("File size (".toList) ++ mbLabel bytes ++ ("MB) exceeds the 2GB limit.".toList)

/-- The `except` clause of `download_and_send_video` [main.py:679-697]:
log the error, rewrite the shared message, return `False`; the `finally`
clause cleans the scratch directory. -/
def jobFail (label : Str) (msg : Option Str) (e : Str) (dir : DirState)
    (evs : List JobEv) : JobOut :=
  { events := evs ++ [JobEv.cleanedUp]
    ok := false
    dir := cleanup_temp_files dir
    msg := msg.map (fun t => failureUpdate t label e)
    caught := some e }

/-- `download_and_send_video(context, chat_id, quality, url, progress_label,
info_message)` [main.py:571-697].  `msg0` is the current text of the shared
info message (`none` when no message was passed). -/
def download_and_send_video (quality : Quality) (env : JobEnv) (label : Str)
    (msg0 : Option Str) : JobOut :=
  let msg1 := msg0.map (fun t => updateDownloading t label)
  match env.fetchErr with
  | some e =>
      jobFail label msg1 e ⟨true, env.fetchFiles⟩ []
  | none =>
      let dir : DirState := ⟨true, env.fetchFiles⟩
      match env.fetchFiles with
      | [] =>
          jobFail label msg1 ("No files were downloaded".toList) dir [JobEv.fetched]
      | f0 :: _ =>
          if MAX_FILE_SIZE < f0.size then
            jobFail label msg1 (sizeLimitMsg f0.size) dir
              [JobEv.fetched, JobEv.sizeChecked f0.size]
          else
            let msg2 := msg1.map (fun t => updateUploading t label f0.size)
            match env.sendErr with
            | some e =>
                jobFail label msg2 e dir [JobEv.fetched, JobEv.sizeChecked f0.size]
            | none =>
                { events := [JobEv.fetched, JobEv.sizeChecked f0.size,
                    (match quality with
                     | Quality.audio => JobEv.sentAudio f0.name
                     | Quality.res _ => JobEv.sentVideo f0.name),
                    JobEv.cleanedUp]
                  ok := true
                  dir := cleanup_temp_files dir
                  msg := msg2.map (fun t => completedUpdate t label)
                  caught := none }

/-! ## Batch orchestration of `handle_playlist_action` "all" [main.py:399-443] -/

/-- Lifecycle of one playlist download job: not yet created, created by
`asyncio.create_task` but not yet running, past the "Downloading" progress
update, or settled (`download_and_send_video` returned `ok`). -/
inductive JobState
  | idle
  | created
  | downloading
  | done (ok : Bool)
deriving DecidableEq

/-- A job state is terminal when the coroutine has returned. -/
def JobState.terminal : JobState → Bool
  | .done _ => true
  | _ => false

/-- State of the batch orchestrator: the per-job states of the playlist in
order, and how many batches the `for batch_start in range(0, video_count,
DOWNLOAD_BATCH_SIZE)` loop has created so far. -/
structure OrchState where
  jobs : List JobState
  spawned : Nat

/-- `asyncio.create_task` for every index in `[start, start +
DOWNLOAD_BATCH_SIZE)` of the entry list [main.py:413-432]. -/
def spawnBatch (jobs : List JobState) (start : Nat) : List JobState :=
  jobs.mapIdx (fun i st =>
    if start ≤ i ∧ i < start + DOWNLOAD_BATCH_SIZE then JobState.created else st)

/-- Small-step semantics of the "all" action loop under the cooperative
scheduler.  `spawn` is one iteration of the batch loop: it fires only after
`await asyncio.gather(*download_tasks)` of the previous iteration has
returned, i.e. when every previously created job is terminal
[main.py:408-441].  `start` and `finish` are scheduler steps of an
individual job coroutine. -/
inductive OrchStep : OrchState → OrchState → Prop
  | spawn (s : OrchState) :
      DOWNLOAD_BATCH_SIZE * s.spawned < s.jobs.length →
      (∀ i, i < DOWNLOAD_BATCH_SIZE * s.spawned →
        (s.jobs.getD i JobState.idle).terminal = true) →
      OrchStep s ⟨spawnBatch s.jobs (DOWNLOAD_BATCH_SIZE * s.spawned), s.spawned + 1⟩
  | start (s : OrchState) (i : Nat) :
      s.jobs.getD i JobState.idle = JobState.created →
      OrchStep s ⟨s.jobs.set i JobState.downloading, s.spawned⟩
  | finish (s : OrchState) (i : Nat) (ok : Bool) :
      s.jobs.getD i JobState.idle = JobState.downloading →
      OrchStep s ⟨s.jobs.set i (JobState.done ok), s.spawned⟩

/-- States reachable while downloading a playlist of `n` entries. -/
inductive OrchReach (n : Nat) : OrchState → Prop
  | init : OrchReach n ⟨List.replicate n JobState.idle, 0⟩
  | step {s s' : OrchState} : OrchReach n s → OrchStep s s' → OrchReach n s'

/-- The values `batch_start` takes in
`range(0, video_count, DOWNLOAD_BATCH_SIZE)` [main.py:408]. -/
def batchStarts (n : Nat) : List Nat :=
  (List.range ((n + DOWNLOAD_BATCH_SIZE - 1) / DOWNLOAD_BATCH_SIZE)).map
    (· * DOWNLOAD_BATCH_SIZE)

/-- The size `batch_end - batch_start` of each batch, with `batch_end =
min(batch_start + DOWNLOAD_BATCH_SIZE, video_count)` [main.py:408-409]. -/
def batchSizes (n : Nat) : List Nat :=
  (batchStarts n).map (fun s => min (s + DOWNLOAD_BATCH_SIZE) n - s)

/-! ## `cancel_command` [main.py:76-84] -/

/-- What one `/cancel` invocation does: which task handle it called
`.cancel()` on, the reply text, and the new value of
`context.chat_data['download_task']`. -/
structure CancelOutcome where
  canceled : Option Nat
  reply : Str
  newSlot : Option (Option Nat)

/-- `cancel_command` [main.py:76-84] as a function of the
`context.chat_data['download_task']` slot: `none` means the key is absent,
`some none` means it holds Python `None`, `some (some t)` a task handle
(handles named by `Nat`).  The slot is the only place a handle is ever
stored, so it holds the most recently stored handle.  When the slot holds
`None`, `None.cancel()` raises `AttributeError`, modelled as `.error`. -/
def cancel_command (slot : Option (Option Nat)) : Except Str CancelOutcome :=
  match slot with
  | some (some t) => .ok ⟨some t, ("Download canceled.".toList), some none⟩
  | some none => .error ("AttributeError: NoneType object has no attribute cancel".toList)
  | none => .ok ⟨none, ("No active download to cancel.".toList), none⟩

/-! ## `callback_query_handler` [main.py:321-360] -/

/-- Where the callback router sends a payload: into the single-item
quality-selection flow `handle_quality_selection(quality, url)`
[main.py:332, 352], into `handle_playlist_action(action, url)`
[main.py:342], or a bare `query.answer(text)`. -/
inductive CallbackRoute
  | qualitySel (quality : Str) (url : Str)
  | playlistAct (action : Str) (url : Str)
  | answered (t : Str)
deriving DecidableEq

/-- `callback_query_handler` [main.py:321-360].  `urls` is the
`context.chat_data['urls']` table.  Python's `parts[i]` indexing is written
`getD i []`; every payload the bot itself generates carries enough fields
for the branches that index. -/
def callback_query_handler (data : Str) (urls : List (Str × Str)) : CallbackRoute :=
  if ("quality|".toList).isPrefixOf data then
    let parts := List.splitOn '|' data
    CallbackRoute.qualitySel (parts.getD 1 []) (parts.getD 2 [])
  else if ("playlist_".toList).isPrefixOf data then
    let parts := List.splitOn '_' data
    if 3 ≤ parts.length then
      match List.lookup (parts.getD 2 []) urls with
      | some url => CallbackRoute.playlistAct (parts.getD 1 []) url
      | none => CallbackRoute.answered ("URL not found. Please try again.".toList)
    else CallbackRoute.answered ("Invalid callback data".toList)
  else if ("playlist_video|".toList).isPrefixOf data then
    let parts := List.splitOn '|' data
    CallbackRoute.qualitySel (parts.getD 2 [])
      (("https://www.youtube.com/watch?v=".toList) ++ parts.getD 1 [])
  else if ("video_info|".toList).isPrefixOf data then
    CallbackRoute.answered
      (("Video ID: ".toList) ++ (List.splitOn '|' data).getD 1 [])
  else
    CallbackRoute.answered ("Unknown action".toList)

/-! ## Quality buttons of `process_single_video` [main.py:236-267] -/

/-- One entry of the `formats` list as the button loop reads it:
`f.get("height", 0) or 0` and `f.get("filesize", 0)`. -/
structure VideoFormat where
  height : Nat
  filesize : Nat

/-- The sort order of `sorted(formats, key=lambda x: x.get("height", 0) or 0,
reverse=True)` [main.py:241]; Python's sort is stable, as is
`List.insertionSort`. -/
def formatOrder (a b : VideoFormat) : Prop := b.height ≤ a.height

instance : DecidableRel formatOrder :=
  fun a b => inferInstanceAs (Decidable (b.height ≤ a.height))

instance : IsTotal VideoFormat formatOrder :=
  ⟨fun a b => Nat.le_total b.height a.height⟩

instance : IsTrans VideoFormat formatOrder :=
  ⟨fun _ _ _ hab hbc => le_trans hbc hab⟩

/-- A quality button: a resolution button or the "Audio Only" button. -/
inductive QualityButton
  | resBtn (height : Nat) (label : Str)
  | audioBtn

/-- `res = f"{height}p"` [main.py:244]. -/
def resLabel (height : Nat) : Str := natChars height ++ ['p']

/-- The button label [main.py:247-251]: the resolution, with the
approximate size when `filesize` is known. -/
def resButtonLabel (f : VideoFormat) : Str :=
  if 0 < f.filesize then
    resLabel f.height ++ (" (~".toList) ++ mbLabel f.filesize ++ ("MB)".toList)
  else resLabel f.height

/-- The button-construction loop [main.py:241-254]: walk the sorted formats,
keep heights in `[480, 2160]`, and skip a format whose `f"{height}p"` string
is already in the `unique_resolutions` set. -/
def resButtonsNext : List VideoFormat → List Str → List QualityButton
  | [], _ => []
  | f :: rest, seen =>
    if 480 ≤ f.height ∧ f.height ≤ 2160 then
      if resLabel f.height ∈ seen then resButtonsNext rest seen
      else QualityButton.resBtn f.height (resButtonLabel f) ::
        resButtonsNext rest (resLabel f.height :: seen)
    else resButtonsNext rest seen

/-- The resolution buttons built from the available formats
[main.py:237-254]. -/
def resolutionButtons (formats : List VideoFormat) : List QualityButton :=
  resButtonsNext (List.insertionSort formatOrder formats) []

/-- The full button list [main.py:256-267]: fall back to 1080/720/480 when
no resolution button was created, then append "Audio Only". -/
def quality_buttons (formats : List VideoFormat) : List QualityButton :=
  (if (resolutionButtons formats).isEmpty then
    [QualityButton.resBtn 1080 (resLabel 1080), QualityButton.resBtn 720 (resLabel 720),
      QualityButton.resBtn 480 (resLabel 480)]
  else resolutionButtons formats) ++ [QualityButton.audioBtn]

/-- Heights of the resolution buttons in a button list. -/
def buttonHeights (bs : List QualityButton) : List Nat :=
  bs.filterMap (fun b =>
    match b with
    | QualityButton.resBtn h _ => some h
    | QualityButton.audioBtn => none)

/-! ## Error texts of `handle_url` [main.py:110-115] -/

/-- An exception escaping the URL-handling body, as `handle_url` catches
it: a `yt_dlp` `DownloadError` or any other exception, with `str(e)`. -/
inductive UrlErr
  | downloadFailure (e : Str)
  | otherFailure (e : Str)

/-- The status text `handle_url` puts in the chat for an escaped exception
[main.py:110-115]. -/
def handleUrlErrorText : UrlErr → Str
  | .downloadFailure e => ("❌ YouTube error: ".toList) ++ e
  | .otherFailure e =>
      ("❌ Error processing video. Please try again. Error: ".toList) ++ e.take 100

/-! ## Theorems -/

/-- Helper: a list is a `isPrefixOf` of itself followed by anything. -/
theorem isPrefixOf_append_self (p t : Str) : p.isPrefixOf (p ++ t) = true :=
  List.isPrefixOf_iff_prefix.mpr (List.prefix_append p t)

/-- Helper: a substring occurring right here is found. -/
theorem hasSub_of_here (p t : Str) : hasSub p (p ++ t) = true := by
  cases p with
  | nil => cases t <;> simp [hasSub, List.isPrefixOf]
  | cons c cs =>
      simp only [List.cons_append, hasSub]
      have h := isPrefixOf_append_self (c :: cs) t
      simp only [List.cons_append] at h
      simp [h]

/-- Helper: a substring of the right part is a substring of the whole. -/
theorem hasSub_append_right (p a b : Str) (h : hasSub p b = true) :
    hasSub p (a ++ b) = true := by
  induction a with
  | nil => simpa using h
  | cons c cs ih => simp [hasSub, ih]

/-- C4: the `"playlist_video|<videoId>|<quality>"` payloads generated at
[main.py:548-550] never reach `handle_quality_selection`: the
`startswith("playlist_")` test at [main.py:333] matches them first, so the
dedicated branch at [main.py:347] is dead code.  A video id without
underscores falls into the too-few-parts answer; one with an underscore is
parsed as a bogus playlist action and answers "URL not found". -/
theorem playlist_video_callback_misrouted :
    (("playlist_video|dQw4w9WgXcQ|720".toList).isPrefixOf
      ("playlist_".toList) = false ∧
     ("playlist_".toList).isPrefixOf
      ("playlist_video|dQw4w9WgXcQ|720".toList) = true) ∧
    callback_query_handler ("playlist_video|dQw4w9WgXcQ|720".toList) [] =
      CallbackRoute.answered ("Invalid callback data".toList) ∧
    callback_query_handler ("playlist_video|ab_cd|720".toList)
      [(("u1".toList), ("http://x".toList))] =
      CallbackRoute.answered ("URL not found. Please try again.".toList) ∧
    callback_query_handler ("playlist_video|dQw4w9WgXcQ|720".toList) [] ≠
      CallbackRoute.qualitySel ("720".toList)
        ("https://www.youtube.com/watch?v=dQw4w9WgXcQ".toList) := by
  refine ⟨⟨by decide, by decide⟩, by decide, by decide, by decide⟩

/-- C5: `cancel_command` [main.py:76-84] cancels exactly the task handle
stored in the chat's `download_task` slot (the single per-chat slot, hence
the most recently stored handle), clears the slot, and replies "Download
canceled."; when the chat has no stored slot it replies that there is no
active download. -/
theorem cancel_cancels_stored_handle :
    (∀ t : Nat, cancel_command (some (some t)) =
      Except.ok ⟨some t, ("Download canceled.".toList), some none⟩) ∧
    cancel_command none =
      Except.ok ⟨none, ("No active download to cancel.".toList), none⟩ :=
  ⟨fun _ => rfl, rfl⟩

/-- C7: when no resolution button survives the filtering [main.py:256-267],
the offered options are exactly 1080p, 720p, 480p, Audio Only, in that
order. -/
theorem fallback_quality_options (formats : List VideoFormat)
    (h : resolutionButtons formats = []) :
    quality_buttons formats =
      [QualityButton.resBtn 1080 (resLabel 1080), QualityButton.resBtn 720 (resLabel 720),
        QualityButton.resBtn 480 (resLabel 480), QualityButton.audioBtn] := by
  simp [quality_buttons, h]

/-- Witness for `fallback_quality_options` at the empty format list. -/
theorem fallback_quality_options_witness :
    resolutionButtons [] = [] ∧
    quality_buttons [] =
      [QualityButton.resBtn 1080 (resLabel 1080), QualityButton.resBtn 720 (resLabel 720),
        QualityButton.resBtn 480 (resLabel 480), QualityButton.audioBtn] :=
  ⟨rfl, fallback_quality_options [] rfl⟩

/-- C8 counterexample: the `DownloadError` branch of `handle_url`
[main.py:110-112] puts the full `str(e)` in the chat: for a 101-character
error the whole reason, longer than 100 characters, is a suffix of the
status text sent to the chat. -/
theorem error_text_truncation_counterexample :
    (List.replicate 101 'x').isSuffixOf
      (handleUrlErrorText (UrlErr.downloadFailure (List.replicate 101 'x'))) = true ∧
    100 < (List.replicate 101 'x').length := by
  refine ⟨by decide, by decide⟩

/-- C8 amended: every surfaced error text starts with the ❌ marker; the
generic branch of `handle_url` [main.py:113-115] truncates the reason to at
most 100 characters and the per-job failure line [main.py:687, 690] to at
most 50, but the `DownloadError` branch [main.py:110-112] appends the full
untruncated error string. -/
theorem error_text_truncation_amended :
    (∀ e : Str, ∃ r : Str,
      handleUrlErrorText (UrlErr.otherFailure e) =
        ("❌ Error processing video. Please try again. Error: ".toList) ++ r ∧
      r.length ≤ 100) ∧
    (∀ label e : Str, ∃ r : Str,
      failText label e = ("❌ Failed ".toList) ++ label ++ (": ".toList) ++ r ∧
      r.length ≤ 50) ∧
    (∀ e : Str,
      handleUrlErrorText (UrlErr.downloadFailure e) = ("❌ YouTube error: ".toList) ++ e) := by
  refine ⟨fun e => ⟨e.take 100, rfl, List.length_take_le 100 e⟩,
    fun label e => ⟨e.take 50, by simp [failText], List.length_take_le 50 e⟩,
    fun e => rfl⟩

/-- Helper: cleaning a directory whose entries are all deletable regular
files removes the directory and everything in it. -/
theorem cleanup_of_clean_entries (entries : List FileEntry)
    (h : ∀ f ∈ entries, f.isFile = true ∧ f.deletable = true) :
    cleanup_temp_files ⟨true, entries⟩ = ⟨false, []⟩ := by
  have hsurv : cleanupSurvivors entries = [] := by
    refine List.filter_eq_nil_iff.mpr (fun f hf => ?_)
    simp [(h f hf).1, (h f hf).2]
  simp [cleanup_temp_files, cleanupWithExceptions, hsurv]

/-- Helper: whatever the job outcome, the final directory state is the
cleaned fetch-time directory (the `finally` clause runs on every path). -/
theorem job_dir_always_cleaned (quality : Quality) (env : JobEnv) (label : Str)
    (msg0 : Option Str) :
    (download_and_send_video quality env label msg0).dir =
      cleanup_temp_files ⟨true, env.fetchFiles⟩ := by
  rcases env with ⟨fe, ff, ft, se⟩
  cases fe with
  | some e => rfl
  | none =>
      cases ff with
      | nil => rfl
      | cons f0 rest =>
          simp only [download_and_send_video, jobFail]
          split
          · rfl
          · cases se <;> rfl

/-- C2: when the fetched file exceeds the `MAX_FILE_SIZE` ceiling
[main.py:630-635], the job's events are exactly fetch, size check, cleanup
— in particular no `send_audio`/`send_video` occurs and the size check sits
between fetch and delivery — and the job fails carrying the size-limit
error. -/
theorem size_limit_blocks_delivery (quality : Quality) (env : JobEnv) (label : Str)
    (msg0 : Option Str) (f0 : FileEntry) (rest : List FileEntry)
    (hfe : env.fetchErr = none) (hff : env.fetchFiles = f0 :: rest)
    (hsz : MAX_FILE_SIZE < f0.size) :
    (download_and_send_video quality env label msg0).events =
      [JobEv.fetched, JobEv.sizeChecked f0.size, JobEv.cleanedUp] ∧
    (download_and_send_video quality env label msg0).ok = false ∧
    (download_and_send_video quality env label msg0).caught =
      some (sizeLimitMsg f0.size) := by
  rcases env with ⟨fe, ff, ft, se⟩
  cases hfe
  cases hff
  simp [download_and_send_video, jobFail, hsz]

/-- Witness for `size_limit_blocks_delivery`: a 2000 MiB + 1 byte file. -/
theorem size_limit_blocks_delivery_witness :
    MAX_FILE_SIZE < 2097152001 ∧
    (download_and_send_video Quality.audio
        ⟨none, [⟨['a'], 2097152001, true, true⟩], [], none⟩ [] none).events =
      [JobEv.fetched, JobEv.sizeChecked 2097152001, JobEv.cleanedUp] ∧
    (download_and_send_video Quality.audio
        ⟨none, [⟨['a'], 2097152001, true, true⟩], [], none⟩ [] none).ok = false ∧
    (download_and_send_video Quality.audio
        ⟨none, [⟨['a'], 2097152001, true, true⟩], [], none⟩ [] none).caught =
      some (sizeLimitMsg 2097152001) := by
  have h := size_limit_blocks_delivery Quality.audio
    ⟨none, [⟨['a'], 2097152001, true, true⟩], [], none⟩ [] none
    ⟨['a'], 2097152001, true, true⟩ [] rfl rfl (by decide)
  exact ⟨by decide, h.1, h.2.1, h.2.2⟩

/-- C3: whatever the outcome of a download job (success, fetch failure,
empty fetch, size-limit failure, delivery failure), the `finally` clause
[main.py:695-697] leaves the scratch directory and its contents removed,
provided its entries are deletable regular files; and cleaning the removed
directory again has no effect [main.py:784]. -/
theorem scratch_cleanup_unconditional (quality : Quality) (env : JobEnv) (label : Str)
    (msg0 : Option Str)
    (h : ∀ f ∈ env.fetchFiles, f.isFile = true ∧ f.deletable = true) :
    (download_and_send_video quality env label msg0).dir = ⟨false, []⟩ ∧
    cleanup_temp_files (download_and_send_video quality env label msg0).dir =
      (download_and_send_video quality env label msg0).dir := by
  have hd : (download_and_send_video quality env label msg0).dir = ⟨false, []⟩ := by
    rw [job_dir_always_cleaned, cleanup_of_clean_entries env.fetchFiles h]
  exact ⟨hd, by rw [hd]; rfl⟩

/-- Witness for `scratch_cleanup_unconditional` on a failing fetch that
left one regular file behind. -/
theorem scratch_cleanup_unconditional_witness :
    (∀ f ∈ [(⟨['a'], 10, true, true⟩ : FileEntry)],
      f.isFile = true ∧ f.deletable = true) ∧
    (download_and_send_video (Quality.res 720)
        ⟨some ("boom".toList), [⟨['a'], 10, true, true⟩], [], none⟩ [] none).dir =
      ⟨false, []⟩ := by
  refine ⟨by decide, ?_⟩
  exact (scratch_cleanup_unconditional (Quality.res 720)
    ⟨some ("boom".toList), [⟨['a'], 10, true, true⟩], [], none⟩ [] none
    (by decide)).1

/-- C9: `cleanup_temp_files` [main.py:781-794] is total for every
filesystem state — nonexistent directory, undeletable or non-regular
entries, directory still non-empty at `os.rmdir` — every internal error is
caught (the only escaping value is a normal directory state, with the
caught `rmdir` error recorded, never re-raised), so the caller always
continues. -/
theorem cleanup_total_never_raises (d : DirState) :
    (d.present = false → cleanupWithExceptions d = (d, none)) ∧
    (d.present = true → cleanupSurvivors d.entries = [] →
      cleanupWithExceptions d = (⟨false, []⟩, none)) ∧
    (d.present = true → cleanupSurvivors d.entries ≠ [] →
      cleanupWithExceptions d =
        (⟨true, cleanupSurvivors d.entries⟩, some OsErr.rmdirNonEmpty)) ∧
    cleanup_temp_files d = (cleanupWithExceptions d).1 := by
  rcases d with ⟨p, es⟩
  cases p with
  | false => exact ⟨fun _ => rfl, by simp, by simp, rfl⟩
  | true =>
      refine ⟨by simp, fun _ hs => ?_, fun _ hs => ?_, rfl⟩
      · simp [cleanupWithExceptions, hs]
      · simp [cleanupWithExceptions, List.isEmpty_iff, hs]

/-- Witness for `cleanup_total_never_raises`: an existing directory holding
a non-regular entry (the `os.path.isfile` guard skips it, `os.rmdir` then
raises, the handler catches) and a nonexistent directory. -/
theorem cleanup_total_never_raises_witness :
    cleanupWithExceptions ⟨true, [⟨['a'], 0, false, true⟩]⟩ =
      (⟨true, [⟨['a'], 0, false, true⟩]⟩, some OsErr.rmdirNonEmpty) ∧
    cleanupWithExceptions ⟨false, [⟨['a'], 0, false, true⟩]⟩ =
      (⟨false, [⟨['a'], 0, false, true⟩]⟩, none) := by
  constructor
  · have h := (cleanup_total_never_raises ⟨true, [⟨['a'], 0, false, true⟩]⟩).2.2.1
      rfl (by decide)
    simpa using h
  · exact (cleanup_total_never_raises ⟨false, [⟨['a'], 0, false, true⟩]⟩).1 rfl

/-- Helper: an `isPrefixOf` match survives extending the list to the right. -/
theorem isPrefixOf_append_left (p a b : Str) (h : p.isPrefixOf a = true) :
    p.isPrefixOf (a ++ b) = true :=
  List.isPrefixOf_iff_prefix.mpr
    ((List.isPrefixOf_iff_prefix.mp h).trans (List.prefix_append a b))

/-- Helper: a substring of the left part is a substring of the whole. -/
theorem hasSub_append_left (p a b : Str) (h : hasSub p a = true) :
    hasSub p (a ++ b) = true := by
  induction a with
  | nil =>
      have hp : p = [] := by
        cases p with
        | nil => rfl
        | cons c cs => simp [hasSub] at h
      subst hp
      cases b <;> simp [hasSub, List.isPrefixOf]
  | cons c cs ih =>
      simp only [hasSub, Bool.or_eq_true] at h
      simp only [List.cons_append, hasSub, Bool.or_eq_true]
      rcases h with h | h
      · refine Or.inl ?_
        have h2 := isPrefixOf_append_left p (c :: cs) b h
        simpa using h2
      · exact Or.inr (ih h)

/-- Helper: the uploading line contains the substring "Uploading" (inside
its leading `"\nUploading "` piece). -/
theorem hasSub_uploadingLine (label : Str) (bytes : Nat) :
    hasSub ("Uploading".toList) (uploadingLine label bytes) = true := by
  have h0 : hasSub ("Uploading".toList) ("\nUploading ".toList) = true := by decide
  exact hasSub_append_left _ _ _ (hasSub_append_left _ _ _
    (hasSub_append_left _ _ _ (hasSub_append_left _ _ _ h0)))

/-- Helper: the uploading update is the identity when the marker is there. -/
theorem updateUploading_of_present (text label : Str) (bytes : Nat)
    (h : hasSub ("Uploading".toList) text = true) :
    updateUploading text label bytes = text := by
  simp only [updateUploading]
  rw [if_pos h]

/-- Helper: the uploading update appends its line when the marker is absent. -/
theorem updateUploading_of_absent (text label : Str) (bytes : Nat)
    (h : hasSub ("Uploading".toList) text = false) :
    updateUploading text label bytes = text ++ uploadingLine label bytes := by
  simp only [updateUploading]
  rw [if_neg]
  rw [h]
  simp

/-- C10: a job appends an "Uploading" line to the shared progress text only
when the substring "Uploading" is absent [main.py:638-642]; once any line
containing it is displayed, a further uploading update changes nothing, so
at most one "Uploading" marker is ever introduced per message state. -/
theorem uploading_line_single_marker :
    (∀ (text label : Str) (bytes : Nat),
      hasSub ("Uploading".toList) text = true →
      updateUploading text label bytes = text) ∧
    (∀ (text label : Str) (bytes : Nat),
      hasSub ("Uploading".toList) text = false →
      updateUploading text label bytes = text ++ uploadingLine label bytes) ∧
    (∀ (text l1 l2 : Str) (b1 b2 : Nat),
      updateUploading (updateUploading text l1 b1) l2 b2 =
        updateUploading text l1 b1) := by
  refine ⟨updateUploading_of_present, updateUploading_of_absent,
    fun text l1 l2 b1 b2 => ?_⟩
  by_cases h : hasSub ("Uploading".toList) text = true
  · rw [updateUploading_of_present text l1 b1 h]
    exact updateUploading_of_present text l2 b2 h
  · have hf : hasSub ("Uploading".toList) text = false :=
      Bool.not_eq_true _ ▸ Bool.eq_false_iff.mpr h
    rw [updateUploading_of_absent text l1 b1 hf]
    exact updateUploading_of_present _ l2 b2
      (hasSub_append_right _ _ _ (hasSub_uploadingLine l1 b1))

/-- Witness for `uploading_line_single_marker`: a text already holding the
marker is untouched; an empty text gets exactly one uploading line. -/
theorem uploading_line_single_marker_witness :
    hasSub ("Uploading".toList) ("Uploading [1/2]".toList) = true ∧
    updateUploading ("Uploading [1/2]".toList) ("[2/2]".toList) 0 =
      ("Uploading [1/2]".toList) ∧
    hasSub ("Uploading".toList) [] = false ∧
    updateUploading [] ("[1/2]".toList) 0 = [] ++ uploadingLine ("[1/2]".toList) 0 := by
  refine ⟨by decide, uploading_line_single_marker.1 _ _ _ (by decide),
    by decide, uploading_line_single_marker.2.1 _ _ _ (by decide)⟩

/-- Helper: every button the loop emits comes from an in-range format whose
resolution string was not yet in the seen set. -/
theorem resButtonsNext_mem (l : List VideoFormat) :
    ∀ (seen : List Str) (b : QualityButton), b ∈ resButtonsNext l seen →
    ∃ f, f ∈ l ∧ b = QualityButton.resBtn f.height (resButtonLabel f) ∧
      480 ≤ f.height ∧ f.height ≤ 2160 ∧ resLabel f.height ∉ seen := by
  induction l with
  | nil => intro seen b hb; simp [resButtonsNext] at hb
  | cons f rest ih =>
      intro seen b hb
      simp only [resButtonsNext] at hb
      by_cases hr : 480 ≤ f.height ∧ f.height ≤ 2160
      · rw [if_pos hr] at hb
        by_cases hs : resLabel f.height ∈ seen
        · rw [if_pos hs] at hb
          obtain ⟨g, hg, hbg, h1, h2, h3⟩ := ih seen b hb
          exact ⟨g, List.mem_cons_of_mem f hg, hbg, h1, h2, h3⟩
        · rw [if_neg hs] at hb
          rcases List.mem_cons.mp hb with hb | hb
          · exact ⟨f, List.mem_cons_self f rest, hb, hr.1, hr.2, hs⟩
          · obtain ⟨g, hg, hbg, h1, h2, h3⟩ := ih _ b hb
            exact ⟨g, List.mem_cons_of_mem f hg, hbg, h1, h2,
              fun hmem => h3 (List.mem_cons_of_mem _ hmem)⟩
      · rw [if_neg hr] at hb
        obtain ⟨g, hg, hbg, h1, h2, h3⟩ := ih seen b hb
        exact ⟨g, List.mem_cons_of_mem f hg, hbg, h1, h2, h3⟩

/-- Helper: on a descending-sorted format list the emitted heights are
strictly descending (equal heights are caught by the seen set). -/
theorem resButtonsNext_heights_pairwise (l : List VideoFormat) :
    ∀ seen : List Str, List.Sorted formatOrder l →
    (buttonHeights (resButtonsNext l seen)).Pairwise (fun a b => b < a) := by
  induction l with
  | nil => intro seen _; simp [resButtonsNext, buttonHeights]
  | cons f rest ih =>
      intro seen hsort
      have hsrest : List.Sorted formatOrder rest := (List.sorted_cons.mp hsort).2
      have hhead : ∀ g ∈ rest, g.height ≤ f.height := fun g hg =>
        (List.sorted_cons.mp hsort).1 g hg
      simp only [resButtonsNext]
      by_cases hr : 480 ≤ f.height ∧ f.height ≤ 2160
      · rw [if_pos hr]
        by_cases hs : resLabel f.height ∈ seen
        · rw [if_pos hs]; exact ih seen hsrest
        · rw [if_neg hs]
          simp only [buttonHeights, List.filterMap_cons]
          refine List.pairwise_cons.mpr ⟨?_, ih _ hsrest⟩
          intro a ha
          obtain ⟨b, hb, hba⟩ := List.mem_filterMap.mp ha
          obtain ⟨g, hg, hbg, _, _, hgseen⟩ := resButtonsNext_mem rest _ b hb
          have hag : a = g.height := by
            rw [hbg] at hba
            simpa using hba.symm
          have hne : g.height ≠ f.height := fun he =>
            (List.ne_of_not_mem_cons hgseen) (by rw [he])
          have hle : g.height ≤ f.height := hhead g hg
          omega
      · rw [if_neg hr]; exact ih seen hsrest

/-- C6: the resolution buttons offered for a single video [main.py:237-267]
have strictly descending heights, no duplicate height, and every height in
the interval `[480, 2160]` (the synthesized 1080/720/480 fallback included). -/
theorem resolution_buttons_sorted_dedup_range (formats : List VideoFormat) :
    (buttonHeights (quality_buttons formats)).Pairwise (fun a b => b < a) ∧
    (buttonHeights (quality_buttons formats)).Nodup ∧
    ∀ h ∈ buttonHeights (quality_buttons formats), 480 ≤ h ∧ h ≤ 2160 := by
  have hsplit : buttonHeights (quality_buttons formats) =
      (if (resolutionButtons formats).isEmpty then [1080, 720, 480]
        else buttonHeights (resolutionButtons formats)) := by
    simp only [quality_buttons, buttonHeights, List.filterMap_append]
    by_cases he : (resolutionButtons formats).isEmpty
    · rw [if_pos he, if_pos he]; rfl
    · rw [if_neg he, if_neg he]; simp [buttonHeights]
  rw [hsplit]
  by_cases he : (resolutionButtons formats).isEmpty
  · rw [if_pos he]
    refine ⟨by decide, by decide, by decide⟩
  · rw [if_neg he]
    have hpw : (buttonHeights (resolutionButtons formats)).Pairwise (fun a b => b < a) :=
      resButtonsNext_heights_pairwise _ []
        (List.sorted_insertionSort formatOrder formats)
    refine ⟨hpw, hpw.imp (fun hab => ne_of_gt hab), ?_⟩
    intro h hh
    obtain ⟨b, hb, hba⟩ := List.mem_filterMap.mp hh
    obtain ⟨g, _, hbg, h1, h2, _⟩ := resButtonsNext_mem _ _ b hb
    have hag : h = g.height := by
      rw [hbg] at hba
      simpa using hba.symm
    omega

/-- Witness for `resolution_buttons_sorted_dedup_range` on a format list
with a duplicate 720 and an out-of-range 300. -/
theorem resolution_buttons_sorted_dedup_range_witness :
    1080 ∈ buttonHeights (quality_buttons [⟨720, 0⟩, ⟨1080, 0⟩, ⟨720, 0⟩, ⟨300, 0⟩]) ∧
    (480 ≤ 1080 ∧ 1080 ≤ 2160) ∧
    buttonHeights (quality_buttons [⟨720, 0⟩, ⟨1080, 0⟩, ⟨720, 0⟩, ⟨300, 0⟩]) =
      [1080, 720] := by
  refine ⟨by decide,
    (resolution_buttons_sorted_dedup_range
      [⟨720, 0⟩, ⟨1080, 0⟩, ⟨720, 0⟩, ⟨300, 0⟩]).2.2 1080 (by decide),
    by decide⟩

/-- Helper: `getD` after `set` at the written index. -/
theorem getD_set_self {α : Type} (l : List α) (i : Nat) (v d : α)
    (h : i < l.length) : (l.set i v).getD i d = v := by
  simp [List.getD_eq_getElem?_getD, List.getElem?_set, h]

/-- Helper: `getD` after `set` at a different index. -/
theorem getD_set_ne {α : Type} (l : List α) (i j : Nat) (v d : α)
    (h : i ≠ j) : (l.set i v).getD j d = l.getD j d := by
  simp [List.getD_eq_getElem?_getD, List.getElem?_set, h]

/-- Helper: a `getD` that is not the default hits an existing index. -/
theorem getD_ne_default_lt {α : Type} (l : List α) (i : Nat) (d : α)
    (h : l.getD i d ≠ d) : i < l.length := by
  by_contra hge
  exact h (by simp [List.getD_eq_getElem?_getD,
    List.getElem?_eq_none (le_of_not_lt hge)])

/-- Helper: `spawnBatch` marks an in-window existing index created. -/
theorem spawnBatch_getD_in (jobs : List JobState) (start i : Nat)
    (h1 : start ≤ i) (h2 : i < start + DOWNLOAD_BATCH_SIZE) (h3 : i < jobs.length) :
    (spawnBatch jobs start).getD i JobState.idle = JobState.created := by
  simp [spawnBatch, List.getD_eq_getElem?_getD, List.getElem?_mapIdx,
    List.getElem?_eq_getElem h3, h1, h2]

/-- Helper: `spawnBatch` leaves an out-of-window index untouched. -/
theorem spawnBatch_getD_out (jobs : List JobState) (start i : Nat)
    (h : ¬(start ≤ i ∧ i < start + DOWNLOAD_BATCH_SIZE)) :
    (spawnBatch jobs start).getD i JobState.idle = jobs.getD i JobState.idle := by
  by_cases h3 : i < jobs.length
  · simp [spawnBatch, List.getD_eq_getElem?_getD, List.getElem?_mapIdx,
      List.getElem?_eq_getElem h3, h]
  · have hn : jobs[i]? = none := List.getElem?_eq_none (le_of_not_lt h3)
    have hn2 : (spawnBatch jobs start)[i]? = none := by
      refine List.getElem?_eq_none ?_
      rw [spawnBatch, List.length_mapIdx]
      exact le_of_not_lt h3
    simp [List.getD_eq_getElem?_getD, hn, hn2]


/-- Invariant of the batch orchestrator: the job list keeps its length, only
jobs of batches created so far left `idle`, and every job of every batch
except the most recently created one is terminal (that is what
`await asyncio.gather` of each loop iteration guarantees). -/
theorem orchInv_reach (n : Nat) (s : OrchState) (h : OrchReach n s) :
    s.jobs.length = n ∧
    DOWNLOAD_BATCH_SIZE * (s.spawned - 1) ≤ n ∧
    (∀ i, DOWNLOAD_BATCH_SIZE * s.spawned ≤ i →
      s.jobs.getD i JobState.idle = JobState.idle) ∧
    (∀ i, i < DOWNLOAD_BATCH_SIZE * (s.spawned - 1) →
      (s.jobs.getD i JobState.idle).terminal = true) := by
  have hB : DOWNLOAD_BATCH_SIZE = 5 := rfl
  induction h with
  | init =>
      refine ⟨List.length_replicate n JobState.idle, by simp, fun i _ => ?_, fun i hi => ?_⟩
      · rw [List.getD_eq_getElem?_getD, List.getElem?_replicate]
        by_cases hin : i < n <;> simp [hin]
      · have hi' : i < DOWNLOAD_BATCH_SIZE * (0 - 1) := hi
        rw [hB] at hi'
        omega
  | @step s s' hr hstep ih =>
      obtain ⟨hlen, hbound, hidle, hterm⟩ := ih
      cases hstep with
      | spawn hlt hall =>
          have hlt' : DOWNLOAD_BATCH_SIZE * s.spawned < n := by rw [hlen] at hlt; exact hlt
          refine ⟨by simp [spawnBatch, List.length_mapIdx, hlen], ?_, fun i hi => ?_,
            fun i hi => ?_⟩
          · show DOWNLOAD_BATCH_SIZE * (s.spawned + 1 - 1) ≤ n
            rw [hB] at hlt' ⊢
            omega
          · have hi' : DOWNLOAD_BATCH_SIZE * (s.spawned + 1) ≤ i := hi
            rw [hB] at hi'
            show (spawnBatch s.jobs (DOWNLOAD_BATCH_SIZE * s.spawned)).getD i JobState.idle =
              JobState.idle
            rw [spawnBatch_getD_out s.jobs _ i (by rw [hB]; omega)]
            exact hidle i (by rw [hB]; omega)
          · have hi' : i < DOWNLOAD_BATCH_SIZE * (s.spawned + 1 - 1) := hi
            rw [hB] at hi'
            show ((spawnBatch s.jobs (DOWNLOAD_BATCH_SIZE * s.spawned)).getD i
              JobState.idle).terminal = true
            rw [spawnBatch_getD_out s.jobs _ i (by rw [hB]; omega)]
            exact hall i (by rw [hB]; omega)
      | start i hc =>
          refine ⟨by simp [List.length_set, hlen], hbound, fun j hj => ?_, fun j hj => ?_⟩
          · have hj' : DOWNLOAD_BATCH_SIZE * s.spawned ≤ j := hj
            rcases eq_or_ne i j with rfl | hne
            · rw [hidle i hj'] at hc
              exact absurd hc (by decide)
            · show (s.jobs.set i JobState.downloading).getD j JobState.idle = JobState.idle
              rw [getD_set_ne _ _ _ _ _ hne]
              exact hidle j hj'
          · have hj' : j < DOWNLOAD_BATCH_SIZE * (s.spawned - 1) := hj
            rcases eq_or_ne i j with rfl | hne
            · have hcon := hterm i hj'
              rw [hc] at hcon
              exact absurd hcon (by decide)
            · show ((s.jobs.set i JobState.downloading).getD j JobState.idle).terminal = true
              rw [getD_set_ne _ _ _ _ _ hne]
              exact hterm j hj'
      | finish i ok hc =>
          have hilt : i < s.jobs.length :=
            getD_ne_default_lt _ _ _ (by rw [hc]; decide)
          refine ⟨by simp [List.length_set, hlen], hbound, fun j hj => ?_, fun j hj => ?_⟩
          · have hj' : DOWNLOAD_BATCH_SIZE * s.spawned ≤ j := hj
            rcases eq_or_ne i j with rfl | hne
            · rw [hidle i hj'] at hc
              exact absurd hc (by decide)
            · show (s.jobs.set i (JobState.done ok)).getD j JobState.idle = JobState.idle
              rw [getD_set_ne _ _ _ _ _ hne]
              exact hidle j hj'
          · have hj' : j < DOWNLOAD_BATCH_SIZE * (s.spawned - 1) := hj
            rcases eq_or_ne i j with rfl | hne
            · show ((s.jobs.set i (JobState.done ok)).getD i JobState.idle).terminal = true
              rw [getD_set_self _ _ _ _ hilt]
              rfl
            · show ((s.jobs.set i (JobState.done ok)).getD j JobState.idle).terminal = true
              rw [getD_set_ne _ _ _ _ _ hne]
              exact hterm j hj'

/-- C1: the "Download All" action partitions a 12-item playlist into exactly
the batches 5, 5, 2 [main.py:408-409], and in every reachable orchestrator
state a job whose batch index is later than another job's can only have
reached the downloading or terminal state if that earlier-batch job is
already terminal — batch N+1 never starts before all of batch N has
settled [main.py:408-441]. -/
theorem downloadAll_batch_sequencing :
    batchSizes 12 = [5, 5, 2] ∧
    ∀ (n : Nat) (s : OrchState), OrchReach n s →
      ∀ i j : Nat, i / DOWNLOAD_BATCH_SIZE < j / DOWNLOAD_BATCH_SIZE →
        (s.jobs.getD j JobState.idle = JobState.downloading ∨
          (s.jobs.getD j JobState.idle).terminal = true) →
        (s.jobs.getD i JobState.idle).terminal = true := by
  refine ⟨by decide, fun n s hreach i j hij hj => ?_⟩
  obtain ⟨hlen, hbound, hidle, hterm⟩ := orchInv_reach n s hreach
  have hjne : s.jobs.getD j JobState.idle ≠ JobState.idle := by
    rcases hj with hj | hj
    · rw [hj]
      decide
    · intro hcon
      rw [hcon] at hj
      exact absurd hj (by decide)
  have hjlt : j < DOWNLOAD_BATCH_SIZE * s.spawned := by
    by_contra hge
    exact hjne (hidle j (le_of_not_lt hge))
  refine hterm i ?_
  have h5 : DOWNLOAD_BATCH_SIZE = 5 := rfl
  rw [h5] at hjlt hij ⊢
  omega

/-- Witness for `downloadAll_batch_sequencing`: a concrete run on a 6-item
playlist — batch 1 is created, runs and settles, batch 2 is created and its
job reaches the downloading state — at which point the theorem yields that
job 0 is terminal. -/
theorem downloadAll_batch_sequencing_witness :
    OrchReach 6 ⟨[JobState.done true, JobState.done true, JobState.done true,
      JobState.done true, JobState.done true, JobState.downloading], 2⟩ ∧
    0 / DOWNLOAD_BATCH_SIZE < 5 / DOWNLOAD_BATCH_SIZE ∧
    (([JobState.done true, JobState.done true, JobState.done true, JobState.done true,
      JobState.done true, JobState.downloading] : List JobState).getD 0
      JobState.idle).terminal = true := by
  have h1 : OrchReach 6 ⟨[JobState.created, JobState.created, JobState.created,
      JobState.created, JobState.created, JobState.idle], 1⟩ :=
    OrchReach.step OrchReach.init
      (OrchStep.spawn ⟨List.replicate 6 JobState.idle, 0⟩ (by decide) (by decide))
  have h2 : OrchReach 6 ⟨[JobState.downloading, JobState.created, JobState.created,
      JobState.created, JobState.created, JobState.idle], 1⟩ :=
    OrchReach.step h1 (OrchStep.start _ 0 (by decide))
  have h3 : OrchReach 6 ⟨[JobState.done true, JobState.created, JobState.created,
      JobState.created, JobState.created, JobState.idle], 1⟩ :=
    OrchReach.step h2 (OrchStep.finish _ 0 true (by decide))
  have h4 : OrchReach 6 ⟨[JobState.done true, JobState.downloading, JobState.created,
      JobState.created, JobState.created, JobState.idle], 1⟩ :=
    OrchReach.step h3 (OrchStep.start _ 1 (by decide))
  have h5 : OrchReach 6 ⟨[JobState.done true, JobState.done true, JobState.created,
      JobState.created, JobState.created, JobState.idle], 1⟩ :=
    OrchReach.step h4 (OrchStep.finish _ 1 true (by decide))
  have h6 : OrchReach 6 ⟨[JobState.done true, JobState.done true, JobState.downloading,
      JobState.created, JobState.created, JobState.idle], 1⟩ :=
    OrchReach.step h5 (OrchStep.start _ 2 (by decide))
  have h7 : OrchReach 6 ⟨[JobState.done true, JobState.done true, JobState.done true,
      JobState.created, JobState.created, JobState.idle], 1⟩ :=
    OrchReach.step h6 (OrchStep.finish _ 2 true (by decide))
  have h8 : OrchReach 6 ⟨[JobState.done true, JobState.done true, JobState.done true,
      JobState.downloading, JobState.created, JobState.idle], 1⟩ :=
    OrchReach.step h7 (OrchStep.start _ 3 (by decide))
  have h9 : OrchReach 6 ⟨[JobState.done true, JobState.done true, JobState.done true,
      JobState.done true, JobState.created, JobState.idle], 1⟩ :=
    OrchReach.step h8 (OrchStep.finish _ 3 true (by decide))
  have h10 : OrchReach 6 ⟨[JobState.done true, JobState.done true, JobState.done true,
      JobState.done true, JobState.downloading, JobState.idle], 1⟩ :=
    OrchReach.step h9 (OrchStep.start _ 4 (by decide))
  have h11 : OrchReach 6 ⟨[JobState.done true, JobState.done true, JobState.done true,
      JobState.done true, JobState.done true, JobState.idle], 1⟩ :=
    OrchReach.step h10 (OrchStep.finish _ 4 true (by decide))
  have h12 : OrchReach 6 ⟨[JobState.done true, JobState.done true, JobState.done true,
      JobState.done true, JobState.done true, JobState.created], 2⟩ :=
    OrchReach.step h11 (OrchStep.spawn _ (by decide) (by decide))
  have h13 : OrchReach 6 ⟨[JobState.done true, JobState.done true, JobState.done true,
      JobState.done true, JobState.done true, JobState.downloading], 2⟩ :=
    OrchReach.step h12 (OrchStep.start _ 5 (by decide))
  refine ⟨h13, by decide, ?_⟩
  exact downloadAll_batch_sequencing.2 6 _ h13 0 5 (by decide) (Or.inl (by decide))
